import Mathlib

/-!
Verification of the multi-language text resolution subsystem of
`enhanced-behave-automation` (`src/utils/language_manager.py`,
class `LanguageManager`).

Python dictionaries are embedded as association lists with insertion-order
semantics: `dget` is `dict.get` (keys in a reachable dict are unique, so
"first binding" agrees with the unique binding), `dictSet` is
`dict[k] = v` (overwrite in place, append new keys at the end).
Python's `str.lower` is embedded on its ASCII fragment as `pyLower`;
all strings manipulated by the manager (language codes, category names)
are ASCII.  `importlib.import_module` of a language module is embedded as
an abstract source environment `String → SourceOutcome`: a successful
module import yields its public dict-valued attributes, `ImportError`
is `SourceOutcome.notFound`, and any other exception raised while
loading (e.g. a `SyntaxError` from a malformed module) is
`SourceOutcome.malformed`.
-/

/-- Python `d.get(k)` on a dict embedded as an association list:
the value of the first binding of `k`, if any. -/
def dget {α : Type} (d : List (String × α)) (k : String) : Option α :=
  match d with
  | [] => none
  | p :: rest => if p.1 = k then some p.2 else dget rest k

/-- Python `d.get(k, dflt)` on an embedded dict. -/
def dgetD {α : Type} (d : List (String × α)) (k : String) (dflt : α) : α :=
  (dget d k).getD dflt

/-- Python `d[k] = v` on an embedded dict: overwrite the binding of `k` in place if
present, otherwise append the new binding at the end. -/
def dictSet {α : Type} (d : List (String × α)) (k : String) (v : α) :
    List (String × α) :=
  match d with
  | [] => [(k, v)]
  | p :: rest => if p.1 = k then (k, v) :: rest else p :: dictSet rest k v

/-- ASCII lowercasing of one character (the fragment of Python's
`str.lower` exercised by the manager): the code points of `'A'`–`'Z'`
are 65–90, and lowercasing adds 32. -/
def charLower (c : Char) : Char :=
  if 65 ≤ c.toNat ∧ c.toNat ≤ 90 then Char.ofNat (c.toNat + 32) else c

/-- Python `s.lower()` on ASCII strings. -/
def pyLower (s : String) : String :=
  String.mk (s.data.map charLower)

/-- Python `s.strip()` on ASCII strings: drop leading and trailing
whitespace. -/
def pyStrip (s : String) : String :=
  String.mk (((s.data.dropWhile Char.isWhitespace).reverse.dropWhile Char.isWhitespace).reverse)

/-- A category's data: text key → localized text (a Python dict). -/
abbrev CategoryData := List (String × String)

/-- One language's data: category name → category data. -/
abbrev LangData := List (String × CategoryData)

/-- The whole catalog: language code → language data
(`self.language_data`). -/
abbrev Catalog := List (String × LangData)

/-- Outcome of importing a language module
(`expectations.languages.<name>`): success with the module's public
dict-valued attributes, `ImportError`, or any other exception. -/
inductive SourceOutcome where
  | ok (attrs : List (String × CategoryData))
  | notFound
  | malformed

/-- The alias table `LanguageManager.LANGUAGE_MAPPINGS`, in source order. -/
def LANGUAGE_MAPPINGS : List (String × String) :=
  [("en", "en"), ("english", "en"), ("vi", "vi"), ("vietnamese", "vi"), ("vn", "vi")]

/-- Embeds `LanguageManager._normalize_language_code`: empty input yields
`"en"`; otherwise lowercase and trim, then look the alias up in
`LANGUAGE_MAPPINGS` with default `"en"`. -/
def normalize_language_code (language : String) : String :=
  if language = "" then "en"
  else dgetD LANGUAGE_MAPPINGS (pyStrip (pyLower language)) "en"

/-- Embeds `LanguageManager.get_supported_languages`, which is
`list(set(LANGUAGE_MAPPINGS.values()))`.  Python's `set` iteration order
is unspecified; we embed it as first-occurrence order (`["en", "vi"]`).
A theorem below shows every lookup result is the same under every
permutation of this list, so the choice is irrelevant. -/
def get_supported_languages : List String :=
  (LANGUAGE_MAPPINGS.map Prod.snd).eraseDups

/-- Embeds `LanguageManager._load_language_data`: map the language code to a
module name (default `"english"`), import the module; on success keep the
public dict-valued attributes under their lowercased names; on
`ImportError` store the four default categories, each empty; on any other
exception store an entirely empty entry.  Never raises outward. -/
def load_language_data (sources : String → SourceOutcome)
    (language_data : Catalog) (language_code : String) : Catalog :=
  let module_name := dgetD [("en", "english"), ("vi", "vietnamese")] language_code "english"
  match sources module_name with
  | .ok attrs =>
      let entry := attrs.foldl (fun d p => dictSet d (pyLower p.1) p.2) []
      dictSet language_data language_code entry
  | .notFound =>
      dictSet language_data language_code
        [("messages", []), ("button_texts", []), ("labels", []), ("validation_messages", [])]
  | .malformed =>
      dictSet language_data language_code []

/-- Embeds `LanguageManager._load_all_languages`: load every value of
`LANGUAGE_MAPPINGS` not already present. -/
def load_all_languages (sources : String → SourceOutcome) (data : Catalog) : Catalog :=
  (LANGUAGE_MAPPINGS.map Prod.snd).foldl
    (fun d c => if (dget d c).isNone then load_language_data sources d c else d) data

/-- The mutable state of a `LanguageManager`, together with the
ambient import environment `sources` (external world, constant during a
run). -/
structure LanguageManager where
  current_language : String
  default_language : String
  language_data : Catalog
  sources : String → SourceOutcome

/-- Embeds `LanguageManager.__init__(default_language)` (Python default
`'en'`): normalize the default, set both language fields to it, and
eagerly load all supported languages. -/
def LanguageManager.init (sources : String → SourceOutcome)
    (default_language : String) : LanguageManager :=
  let cur := normalize_language_code default_language
  { current_language := cur
    default_language := cur
    language_data := load_all_languages sources []
    sources := sources }

/-- Embeds `LanguageManager.set_language`: normalize, load on demand if the
normalized code has no catalog entry, then set `current_language`. -/
def set_language (st : LanguageManager) (language : String) : LanguageManager :=
  let normalized := normalize_language_code language
  let st1 :=
    if (dget st.language_data normalized).isNone then
      { st with language_data := load_language_data st.sources st.language_data normalized }
    else st
  { st1 with current_language := normalized }

/-- The category dict consulted for language `l` and category argument
`category`: `self.language_data.get(l, {}).get(category.lower(), {})`. -/
def category_dict (st : LanguageManager) (l category : String) : CategoryData :=
  dgetD (dgetD st.language_data l []) (pyLower category) []

/-- The fallback loop of `LanguageManager.get_text_by_category`: scan
the given language codes in order, skip the current language, and return
the first hit for `key` in the (lowercased) category. -/
def fallbackScan (st : LanguageManager) (category key : String) :
    List String → Option String
  | [] => none
  | l :: rest =>
      if l ≠ st.current_language then
        match dget (category_dict st l category) key with
        | some t => some t
        | none => fallbackScan st category key rest
      else fallbackScan st category key rest

/-- Embeds `LanguageManager.get_text_by_category`, parameterized by the
iteration order of the supported-language set used by the fallback
scan. -/
def get_text_by_category_with_order (supported : List String)
    (st : LanguageManager) (category key : String) (fallback : Bool) : String :=
  match dget (category_dict st st.current_language category) key with
  | some t => t
  | none =>
      if !fallback then "[Missing: " ++ key ++ "]"
      else
        match fallbackScan st category key supported with
        | some t => t
        | none => "[Missing: " ++ key ++ "]"

/-- Embeds `LanguageManager.get_text_by_category(category, key, fallback)`
(Python default `fallback=True`). -/
def get_text_by_category (st : LanguageManager) (category key : String)
    (fallback : Bool) : String :=
  get_text_by_category_with_order get_supported_languages st category key fallback

/-- Embeds `LanguageManager.bulk_get_texts(keys, category)` (Python default
`category='messages'`): build a dict mapping each key to its
`get_text_by_category` result (with the default `fallback=True`). -/
def bulk_get_texts (st : LanguageManager) (keys : List String)
    (category : String) : List (String × String) :=
  keys.foldl (fun result key => dictSet result key (get_text_by_category st category key true)) []

/-- The inner loop of `LanguageManager.find_key_by_text`: first key of
the category whose value equals `text` case-insensitively. -/
def searchCategory (category_data : CategoryData) (text : String) : Option String :=
  match category_data with
  | [] => none
  | (key, value) :: rest =>
      if pyLower value = pyLower text then some key else searchCategory rest text

/-- The outer loop of `LanguageManager.find_key_by_text`: scan the named
categories (`current_data.get(cat, {})`, no lowercasing) and return the
first matching key. -/
def searchCategories (current_data : LangData) (text : String) :
    List String → Option String
  | [] => none
  | c :: rest =>
      match searchCategory (dgetD current_data c []) text with
      | some k => some k
      | none => searchCategories current_data text rest

/-- Embeds `LanguageManager.find_key_by_text(text, category)` (Python default
`category=None`): reverse lookup over the current language's data. -/
def find_key_by_text (st : LanguageManager) (text : String)
    (category : Option String) : Option String :=
  let current_data := dgetD st.language_data st.current_language []
  let categories_to_search :=
    match category with
    | some c => [c]
    | none => current_data.map Prod.fst
  searchCategories current_data text categories_to_search

/-- The per-language body of
`LanguageManager.validate_language_completeness`: for each category of
the reference data (in insertion order), the reference keys absent from
the target language's same category; categories whose missing list is
empty are omitted.  Reference categories are unique in any reachable
dict, so consing preserves the dict's insertion-order construction. -/
def missing_for_lang (reference_data : LangData) (lang_data : LangData) :
    List (String × List String) :=
  match reference_data with
  | [] => []
  | (category, ref_texts) :: rest =>
      let lang_texts := dgetD lang_data category []
      let missing := (ref_texts.map Prod.fst).filter (fun key => (dget lang_texts key).isNone)
      if missing = [] then missing_for_lang rest lang_data
      else (category, missing) :: missing_for_lang rest lang_data

/-- Embeds `LanguageManager.validate_language_completeness(reference_language)`
(Python default `'en'`): for every supported language other than the
normalized reference, record its per-category missing keys (possibly an
empty dict). -/
def validate_language_completeness (st : LanguageManager)
    (reference_language : String) : List (String × List (String × List String)) :=
  let reference_lang := normalize_language_code reference_language
  let reference_data := dgetD st.language_data reference_lang []
  get_supported_languages.foldl
    (fun validation_result lang_code =>
      if lang_code = reference_lang then validation_result
      else
        dictSet validation_result lang_code
          (missing_for_lang reference_data (dgetD st.language_data lang_code [])))
    []

/-- Outcome of the caller-supplied block wrapped by the context manager:
either a normal completion with a value, or an exception propagating
out; both carry the manager state at exit of the block. -/
inductive BlockResult (α : Type) where
  | normal (st : LanguageManager) (val : α)
  | raised (st : LanguageManager)

/-- The manager state carried by a block outcome. -/
def BlockResult.state {α : Type} : BlockResult α → LanguageManager
  | .normal st _ => st
  | .raised st => st

/-- Embeds `LanguageManager.switch_language_temporarily(language)`: remember
`current_language`, `set_language(language)`, run the block, and in a
`finally` clause restore the remembered value — on normal completion and
on an exception alike (the exception keeps propagating). -/
def switch_language_temporarily {α : Type} (st : LanguageManager) (language : String)
    (body : LanguageManager → BlockResult α) : BlockResult α :=
  let original_language := st.current_language
  match body (set_language st language) with
  | .normal st1 v => .normal { st1 with current_language := original_language } v
  | .raised st1 => .raised { st1 with current_language := original_language }

/-- Set-insertion used to embed Python `set` values as duplicate-free
lists in first-insertion order. -/
def setAdd (s : List String) (x : String) : List String :=
  if x ∈ s then s else s ++ [x]

/-- Python `s.update(xs)` and `set(xs)` on the embedded sets. -/
def setUnion (s : List String) (xs : List String) : List String :=
  xs.foldl setAdd s

/-- Embeds `LanguageManager.get_available_keys(category, language)` (Python
defaults `None`, `None`): keys of the given (or current) language,
scoped to one category (`lang_data.get(category, {})`, no lowercasing)
or unioned across all categories.  Every category value in the embedded
catalog is a dict, so the `isinstance(cat_data, dict)` guard always
holds. -/
def get_available_keys (st : LanguageManager) (category : Option String)
    (language : Option String) : List String :=
  let target_lang :=
    match language with
    | some l => normalize_language_code l
    | none => st.current_language
  let lang_data := dgetD st.language_data target_lang []
  match category with
  | some c => setUnion [] ((dgetD lang_data c []).map Prod.fst)
  | none => lang_data.foldl (fun all_keys p => setUnion all_keys (p.2.map Prod.fst)) []

/-! ## Example states used by witnesses and counterexamples -/

/-- A small reachable catalog state: English is current; `"extra"` is
translated only in Vietnamese. -/
def demoState : LanguageManager :=
  { current_language := "en"
    default_language := "en"
    language_data :=
      [("en", [("messages", [("hello", "Hello"), ("bye", "Goodbye")])]),
       ("vi", [("messages", [("hello", "Xin chao"), ("extra", "Them")])])]
    sources := fun _ => SourceOutcome.notFound }

/-- A block that switches the current language again and then fails. -/
def c5Body : LanguageManager → BlockResult Unit :=
  fun s => BlockResult.raised { s with current_language := "vi" }

/-- A state whose current language stores the same text under two
different keys of the same category. -/
def c8State : LanguageManager :=
  { current_language := "en"
    default_language := "en"
    language_data := [("en", [("messages", [("a", "hello"), ("b", "hello")])])]
    sources := fun _ => SourceOutcome.notFound }

/-- A fully complete two-language catalog: every English key is also
translated in Vietnamese. -/
def c4State : LanguageManager :=
  { current_language := "en"
    default_language := "en"
    language_data :=
      [("en", [("messages", [("welcome", "Welcome")])]),
       ("vi", [("messages", [("welcome", "Chao mung")])])]
    sources := fun _ => SourceOutcome.notFound }

/-! ## Library of facts about the embedded dictionaries and strings -/

theorem dget_dictSet {α : Type} (d : List (String × α)) (k k' : String) (v : α) :
    dget (dictSet d k v) k' = if k = k' then some v else dget d k' := by
  induction d with
  | nil => simp [dictSet, dget]
  | cons p rest ih =>
    by_cases hpk : p.1 = k
    · simp only [dictSet, if_pos hpk, dget]
      by_cases hkk : k = k'
      · simp [hkk]
      · simp only [if_neg hkk]
        have : p.1 ≠ k' := by rw [hpk]; exact hkk
        simp [dget, this]
    · simp only [dictSet, if_neg hpk, dget]
      by_cases hpk' : p.1 = k'
      · have : k ≠ k' := by intro he; exact hpk (he ▸ hpk')
        simp [hpk', this]
      · simp [hpk', ih]

theorem dget_eq_none_of_forall {α : Type} (d : List (String × α)) (k : String)
    (h : ∀ p ∈ d, p.1 ≠ k) : dget d k = none := by
  induction d with
  | nil => rfl
  | cons p rest ih =>
    simp only [dget, if_neg (h p (by simp))]
    exact ih (fun q hq => h q (by simp [hq]))

theorem dget_mem_values {α : Type} (d : List (String × α)) (k : String) (v : α)
    (h : dget d k = some v) : v ∈ d.map Prod.snd := by
  induction d with
  | nil => simp [dget] at h
  | cons p rest ih =>
    simp only [dget] at h
    by_cases hp : p.1 = k
    · rw [if_pos hp] at h
      simp [← Option.some_inj.mp h]
    · rw [if_neg hp] at h
      simp [ih h]

theorem dget_mem {α : Type} (d : List (String × α)) (k : String) (v : α)
    (h : dget d k = some v) : (k, v) ∈ d := by
  induction d with
  | nil => simp [dget] at h
  | cons p rest ih =>
    obtain ⟨p1, p2⟩ := p
    simp only [dget] at h
    by_cases hp : p1 = k
    · subst hp
      simp at h
      subst h
      exact List.mem_cons_self _ _
    · simp [hp] at h
      exact List.mem_cons_of_mem _ (ih h)

theorem charLower_idem (c : Char) : charLower (charLower c) = charLower c := by
  by_cases h : 65 ≤ c.toNat ∧ c.toNat ≤ 90
  · have h1 : charLower c = Char.ofNat (c.toNat + 32) := by rw [charLower, if_pos h]
    rw [h1]
    obtain ⟨ha, hb⟩ := h
    generalize c.toNat = n at ha hb ⊢
    interval_cases n <;> decide
  · have h2 : charLower c = c := by rw [charLower, if_neg h]
    rw [h2, h2]

theorem pyLower_idem (s : String) : pyLower (pyLower s) = pyLower s := by
  unfold pyLower
  simp [List.map_map, Function.comp_def, charLower_idem]

theorem normalize_en_or_vi (s : String) :
    normalize_language_code s = "en" ∨ normalize_language_code s = "vi" := by
  unfold normalize_language_code
  by_cases h : s = ""
  · simp [h]
  · rw [if_neg h]
    unfold dgetD
    cases hdg : dget LANGUAGE_MAPPINGS (pyStrip (pyLower s)) with
    | none => simp
    | some c =>
      have hmem := dget_mem_values _ _ _ hdg
      simp [LANGUAGE_MAPPINGS] at hmem
      simpa using hmem

theorem set_language_current (st : LanguageManager) (l : String) :
    (set_language st l).current_language = normalize_language_code l := rfl

theorem set_language_default (st : LanguageManager) (l : String) :
    (set_language st l).default_language = st.default_language := by
  by_cases h : (dget st.language_data (normalize_language_code l)).isNone
  · simp [set_language, h]
  · simp [set_language, h]

theorem category_dict_pyLower (st : LanguageManager) (l c : String) :
    category_dict st l (pyLower c) = category_dict st l c := by
  unfold category_dict
  rw [pyLower_idem]

theorem fallbackScan_pyLower (st : LanguageManager) (c key : String)
    (order : List String) :
    fallbackScan st (pyLower c) key order = fallbackScan st c key order := by
  induction order with
  | nil => rfl
  | cons l rest ih => simp [fallbackScan, category_dict_pyLower, ih]

theorem fallbackScan_eq_first (st : LanguageManager) (category key : String)
    (order : List String) :
    fallbackScan st category key order =
      ((order.filter fun l =>
          l != st.current_language && (dget (category_dict st l category) key).isSome).head?).bind
        fun l => dget (category_dict st l category) key := by
  induction order with
  | nil => rfl
  | cons l rest ih =>
    by_cases hl : l = st.current_language
    · simp [fallbackScan, hl, List.filter_cons, ih]
    · cases hdg : dget (category_dict st l category) key with
      | some t => simp [fallbackScan, hl, List.filter_cons, hdg]
      | none => simp [fallbackScan, hl, List.filter_cons, hdg, ih]

theorem perm_pair_en_vi {l : List String} (h : l.Perm ["en", "vi"]) :
    l = ["en", "vi"] ∨ l = ["vi", "en"] := by
  have hlen : l.length = 2 := by simpa using h.length_eq
  obtain ⟨a, b, rfl⟩ := List.length_eq_two.mp hlen
  have ha : a ∈ (["en", "vi"] : List String) := h.subset (by simp)
  have hb : b ∈ (["en", "vi"] : List String) := h.subset (by simp)
  have hnd : ([a, b] : List String).Nodup := h.nodup_iff.mpr (by decide)
  have hab : a ≠ b := by
    simp [List.nodup_cons] at hnd
    exact hnd
  simp at ha hb
  rcases ha with ha | ha <;> rcases hb with hb | hb <;> subst ha <;> subst hb <;> simp_all

/-! ## C1 -/

/-- C1: if the key is absent from the current language's data for the
(lowercased) category, `get_text_by_category` with fallback disabled
returns exactly the string `"[Missing: " ++ key ++ "]"`; being a total
function, it cannot raise. -/
theorem getText_noFallback_missing (st : LanguageManager) (category key : String)
    (h : dget (category_dict st st.current_language category) key = none) :
    get_text_by_category st category key false = "[Missing: " ++ key ++ "]" := by
  unfold get_text_by_category get_text_by_category_with_order
  rw [h]
  rfl

/-- C1 witness: `"nope"` is untranslated in the demo catalog. -/
theorem getText_noFallback_missing_witness :
    get_text_by_category demoState "messages" "nope" false = "[Missing: nope]" :=
  getText_noFallback_missing demoState "messages" "nope" (by decide)

/-! ## C2 -/

/-- C2: with fallback enabled and the key absent from the current
language, the result is the text of the first other supported language
(in scan order) that has the key; the `"[Missing: ...]"` placeholder
comes back only when no supported language has the key. -/
theorem getText_fallback_first_match (st : LanguageManager) (category key : String)
    (hcur : dget (category_dict st st.current_language category) key = none) :
    (∀ l t,
      ((get_supported_languages.filter fun l2 =>
          l2 != st.current_language && (dget (category_dict st l2 category) key).isSome).head?
        = some l) →
      dget (category_dict st l category) key = some t →
      get_text_by_category st category key true = t)
    ∧ ((∀ l ∈ get_supported_languages, l ≠ st.current_language →
          dget (category_dict st l category) key = none) →
        get_text_by_category st category key true = "[Missing: " ++ key ++ "]") := by
  constructor
  · intro l t hhead hget
    unfold get_text_by_category get_text_by_category_with_order
    rw [hcur, fallbackScan_eq_first, hhead]
    simp [hget]
  · intro hall
    unfold get_text_by_category get_text_by_category_with_order
    rw [hcur, fallbackScan_eq_first]
    have hfil : (get_supported_languages.filter fun l2 =>
        l2 != st.current_language && (dget (category_dict st l2 category) key).isSome) = [] := by
      rw [List.filter_eq_nil_iff]
      intro l hl
      by_cases hlc : l = st.current_language
      · simp [hlc]
      · simp [hlc, hall l hl hlc]
    rw [hfil]
    rfl

/-- C2 witness: `"extra"` exists only in Vietnamese, so the English
lookup falls back to the Vietnamese text. -/
theorem getText_fallback_first_match_witness :
    get_text_by_category demoState "messages" "extra" true = "Them" :=
  (getText_fallback_first_match demoState "messages" "extra" (by decide)).1
    "vi" "Them" (by decide) (by decide)

/-! ## C9 -/

theorem fallbackScan_swap (st : LanguageManager) (c k : String)
    (hcur : st.current_language = "en" ∨ st.current_language = "vi") :
    fallbackScan st c k ["en", "vi"] = fallbackScan st c k ["vi", "en"] := by
  rcases hcur with hc | hc <;>
    cases hdg : dget (category_dict st "vi" c) k <;>
    cases hdg2 : dget (category_dict st "en" c) k <;>
    simp [fallbackScan, hc, hdg, hdg2]

/-- C9: the result of a lookup does not depend on which iteration order
the supported-language set happens to produce: under any two
permutations of the supported set, `get_text_by_category` returns the
same text.  In particular two runs of the program with the same catalog
and input resolve to the same text (and, the non-current supported
language being unique, the same fallback source language), whatever
order Python's set iteration yields in each run. -/
theorem resolveText_order_independent (st : LanguageManager) (category key : String)
    (fallback : Bool) (ord1 ord2 : List String)
    (h1 : ord1.Perm get_supported_languages) (h2 : ord2.Perm get_supported_languages)
    (hcur : st.current_language ∈ get_supported_languages) :
    get_text_by_category_with_order ord1 st category key fallback =
      get_text_by_category_with_order ord2 st category key fallback := by
  have hs : get_supported_languages = ["en", "vi"] := rfl
  rw [hs] at h1 h2 hcur
  have hcc : st.current_language = "en" ∨ st.current_language = "vi" := by
    simpa using hcur
  rcases perm_pair_en_vi h1 with e1 | e1 <;> rcases perm_pair_en_vi h2 with e2 | e2 <;>
    subst e1 <;> subst e2 <;> unfold get_text_by_category_with_order
  · rfl
  · rw [fallbackScan_swap st category key hcc]
  · rw [← fallbackScan_swap st category key hcc]
  · rfl

/-- C9 witness: the two possible iteration orders of the two-language
set give the same resolution on the demo catalog. -/
theorem resolveText_order_independent_witness :
    get_text_by_category_with_order ["en", "vi"] demoState "messages" "extra" true =
      get_text_by_category_with_order ["vi", "en"] demoState "messages" "extra" true :=
  resolveText_order_independent demoState "messages" "extra" true
    ["en", "vi"] ["vi", "en"] (by decide) (by decide) (by decide)

/-! ## C3 -/

/-- C3 counterexample: a manager configured with default language
`"vi"` still normalizes unrecognized input to the hardcoded `"en"`, so
`set_language("bogus")` leaves the current language at `"en"`, not at
the configured default `"vi"`. -/
theorem normalize_bogus_counterexample :
    (LanguageManager.init (fun _ => SourceOutcome.notFound) "vi").default_language = "vi"
    ∧ (set_language (LanguageManager.init (fun _ => SourceOutcome.notFound) "vi")
        "bogus").current_language = "en"
    ∧ ("en" : String) ≠ "vi" :=
  ⟨rfl, rfl, by decide⟩

/-- C3 amended: normalization is total and never fails; every
recognized alias (case variants, trimmed) maps deterministically to one
canonical code in the supported set; unrecognized or empty input maps to
the fixed code `"en"` (which coincides with the configured default only
when that default is English); `set_language("bogus")` sets the current
language to `"en"` without raising and leaves the default untouched. -/
theorem normalize_total_fixed_en (st : LanguageManager) (s : String) :
    (normalize_language_code s = "en" ∨ normalize_language_code s = "vi")
    ∧ ((∀ p ∈ LANGUAGE_MAPPINGS, p.1 ≠ pyStrip (pyLower s)) → normalize_language_code s = "en")
    ∧ normalize_language_code "" = "en"
    ∧ normalize_language_code "English" = "en"
    ∧ normalize_language_code " VN " = "vi"
    ∧ normalize_language_code "Vietnamese" = "vi"
    ∧ normalize_language_code "bogus" = "en"
    ∧ (set_language st "bogus").current_language = "en"
    ∧ (set_language st "bogus").default_language = st.default_language := by
  refine ⟨normalize_en_or_vi s, ?_, rfl, rfl, rfl, rfl, rfl, ?_,
    set_language_default st "bogus"⟩
  · intro hnone
    unfold normalize_language_code
    by_cases h : s = ""
    · simp [h]
    · rw [if_neg h, dgetD, dget_eq_none_of_forall _ _ hnone]
      rfl
  · rw [set_language_current]
    rfl

/-- C3 witness: `"zzz"` matches no alias and normalizes to `"en"`. -/
theorem normalize_total_fixed_en_witness :
    normalize_language_code "zzz" = "en" :=
  (normalize_total_fixed_en demoState "zzz").2.1 (by decide)

/-! ## C5 -/

/-- C5: the scoped switch hands the body a state whose current language
is the normalized argument, restores the prior current language on both
exit paths (normal completion and exception), and changes the default
language only if the body itself does — in particular it is unchanged
whenever the body preserves it. -/
theorem scoped_switch_restores (α : Type) (st : LanguageManager) (language : String)
    (body : LanguageManager → BlockResult α) :
    (switch_language_temporarily st language body).state.current_language =
      st.current_language
    ∧ (set_language st language).current_language = normalize_language_code language
    ∧ ((∀ s, (body s).state.default_language = s.default_language) →
        (switch_language_temporarily st language body).state.default_language =
          st.default_language) := by
  refine ⟨?_, set_language_current st language, ?_⟩
  · unfold switch_language_temporarily
    cases body (set_language st language) <;> rfl
  · intro hbody
    unfold switch_language_temporarily
    cases hb : body (set_language st language) with
    | normal st1 v =>
        have h1 := hbody (set_language st language)
        rw [hb] at h1
        simp only [BlockResult.state] at h1 ⊢
        rw [h1, set_language_default]
    | raised st1 =>
        have h1 := hbody (set_language st language)
        rw [hb] at h1
        simp only [BlockResult.state] at h1 ⊢
        rw [h1, set_language_default]

/-- C5 witness: wrapping a failing block still restores the pre-scope
current language and keeps the default language. -/
theorem scoped_switch_restores_witness :
    (switch_language_temporarily demoState "vi" c5Body).state.current_language = "en"
    ∧ (switch_language_temporarily demoState "vi" c5Body).state.default_language = "en" :=
  ⟨(scoped_switch_restores Unit demoState "vi" c5Body).1,
   (scoped_switch_restores Unit demoState "vi" c5Body).2.2 (fun _ => rfl)⟩

/-! ## C6 -/

/-- C6 counterexample: a malformed source (an exception other than
`ImportError`, e.g. a `SyntaxError` while importing the module) stores
an entirely empty entry for the language — not an entry with the four
default categories. -/
theorem load_malformed_counterexample :
    load_language_data (fun _ => SourceOutcome.malformed) [] "en" = [("en", [])]
    ∧ ([] : LangData) ≠
        [("messages", []), ("button_texts", []), ("labels", []),
         ("validation_messages", [])] :=
  ⟨rfl, by decide⟩

/-- C6 amended: loading never raises outward (it is a total function on
every source outcome); a source-not-found failure (`ImportError`) stores
the four default categories each mapped to an empty key set, while any
other load failure stores an entirely empty entry. -/
theorem load_failure_entries (sources : String → SourceOutcome) (data : Catalog)
    (lang : String) :
    (sources (dgetD [("en", "english"), ("vi", "vietnamese")] lang "english") =
        SourceOutcome.notFound →
      dget (load_language_data sources data lang) lang =
        some [("messages", []), ("button_texts", []), ("labels", []),
              ("validation_messages", [])])
    ∧ (sources (dgetD [("en", "english"), ("vi", "vietnamese")] lang "english") =
        SourceOutcome.malformed →
      dget (load_language_data sources data lang) lang = some []) := by
  constructor <;> intro h <;> simp only [load_language_data] <;> rw [h] <;>
    simp [dget_dictSet]

/-- C6 witness: loading Vietnamese from an absent source yields the
four empty default categories. -/
theorem load_failure_entries_witness :
    dget (load_language_data (fun _ => SourceOutcome.notFound) [] "vi") "vi" =
      some [("messages", []), ("button_texts", []), ("labels", []),
            ("validation_messages", [])] :=
  (load_failure_entries (fun _ => SourceOutcome.notFound) [] "vi").1 rfl

/-! ## C7 -/

theorem dget_foldl_dictSet_of_not_mem (f : String → String) (keys : List String)
    (acc : List (String × String)) (k : String) (h : k ∉ keys) :
    dget (keys.foldl (fun r key => dictSet r key (f key)) acc) k = dget acc k := by
  induction keys generalizing acc with
  | nil => rfl
  | cons key rest ih =>
    simp only [List.foldl_cons]
    have hk : k ∉ rest := fun hm => h (List.mem_cons_of_mem _ hm)
    have hne : key ≠ k := fun he => h (he ▸ List.mem_cons_self key rest)
    rw [ih _ hk, dget_dictSet, if_neg hne]

theorem dget_foldl_dictSet_stable (f : String → String) (keys : List String)
    (acc : List (String × String)) (k : String)
    (h : dget acc k = some (f k)) :
    dget (keys.foldl (fun r key => dictSet r key (f key)) acc) k = some (f k) := by
  induction keys generalizing acc with
  | nil => exact h
  | cons key rest ih =>
    simp only [List.foldl_cons]
    apply ih
    rw [dget_dictSet]
    by_cases hk : key = k
    · rw [if_pos hk, hk]
    · rw [if_neg hk]
      exact h

theorem dget_foldl_dictSet_of_mem (f : String → String) (keys : List String)
    (acc : List (String × String)) (k : String) (h : k ∈ keys) :
    dget (keys.foldl (fun r key => dictSet r key (f key)) acc) k = some (f k) := by
  induction keys generalizing acc with
  | nil => cases h
  | cons key rest ih =>
    simp only [List.foldl_cons]
    by_cases hk : k ∈ rest
    · exact ih _ hk
    · have hkey : key = k := by
        rcases List.mem_cons.mp h with he | hm
        · exact he.symm
        · exact absurd hm hk
      apply dget_foldl_dictSet_stable
      rw [dget_dictSet, if_pos hkey, hkey]

/-- C7: the dict built by `bulk_get_texts` has exactly the given keys
as its domain, each mapped to its own `get_text_by_category` result
(with the Python-default `fallback=True`); a key resolving to the
missing placeholder is stored like any other, so a batch mixing present
and absent keys succeeds with no exception (the function is total). -/
theorem bulk_get_texts_spec (st : LanguageManager) (keys : List String)
    (category k : String) :
    dget (bulk_get_texts st keys category) k =
      if k ∈ keys then some (get_text_by_category st category k true) else none := by
  unfold bulk_get_texts
  by_cases h : k ∈ keys
  · rw [if_pos h]
    exact dget_foldl_dictSet_of_mem _ keys [] k h
  · rw [if_neg h]
    rw [dget_foldl_dictSet_of_not_mem _ keys [] k h]
    rfl

/-! ## C8 -/

theorem searchCategory_first (cd : CategoryData) (t k v : String)
    (hk : (k, v) ∈ cd) (hv : pyLower v = pyLower t)
    (huniq : ∀ p ∈ cd, pyLower p.2 = pyLower t → p.1 = k) :
    searchCategory cd t = some k := by
  induction cd with
  | nil => cases hk
  | cons p rest ih =>
    obtain ⟨k0, v0⟩ := p
    simp only [searchCategory]
    by_cases hm : pyLower v0 = pyLower t
    · rw [if_pos hm]
      exact congrArg some (huniq (k0, v0) (List.mem_cons_self _ _) hm)
    · rw [if_neg hm]
      apply ih
      · rcases List.mem_cons.mp hk with he | hm2
        · exfalso
          have hvv : v = v0 := congrArg Prod.snd he
          exact hm (hvv ▸ hv)
        · exact hm2
      · exact fun p hp hpt => huniq p (List.mem_cons_of_mem _ hp) hpt

theorem searchCategory_none (cd : CategoryData) (t : String)
    (h : ∀ p ∈ cd, pyLower p.2 ≠ pyLower t) :
    searchCategory cd t = none := by
  induction cd with
  | nil => rfl
  | cons p rest ih =>
    obtain ⟨k0, v0⟩ := p
    simp only [searchCategory]
    rw [if_neg (h (k0, v0) (List.mem_cons_self _ _))]
    exact ih (fun q hq => h q (List.mem_cons_of_mem _ hq))

/-- C8 counterexample: key `"b"` resolves to `"hello"`, but the reverse
lookup of `"hello"` returns the first matching key `"a"`, not `"b"` —
the claimed round trip fails whenever two keys share a text. -/
theorem reverse_lookup_counterexample :
    get_text_by_category c8State "messages" "b" true = "hello"
    ∧ find_key_by_text c8State
        (get_text_by_category c8State "messages" "b" true) none = some "a"
    ∧ (some "a" : Option String) ≠ some "b" :=
  ⟨rfl, rfl, by decide⟩

/-- C8 amended: `find_key_by_text` returns the first key in iteration
order whose text matches case-insensitively, and `none` when no value
matches; hence the round trip `find_key_by_text (text of k) = some k`
holds exactly when `k`'s text is case-insensitively unique in the
searched category. -/
theorem reverse_lookup_first_match (st : LanguageManager) (c v : String) :
    (∀ k, dget (dgetD (dgetD st.language_data st.current_language []) c []) k = some v →
      (∀ p ∈ dgetD (dgetD st.language_data st.current_language []) c [],
          pyLower p.2 = pyLower v → p.1 = k) →
      pyLower c = c →
      get_text_by_category st c k true = v ∧ find_key_by_text st v (some c) = some k)
    ∧ ((∀ p ∈ dgetD (dgetD st.language_data st.current_language []) c [],
          pyLower p.2 ≠ pyLower v) →
        find_key_by_text st v (some c) = none) := by
  constructor
  · intro k hget huniq hlc
    constructor
    · unfold get_text_by_category get_text_by_category_with_order category_dict
      rw [hlc, hget]
    · simp only [find_key_by_text, searchCategories]
      rw [searchCategory_first _ v k v (dget_mem _ _ _ hget) rfl huniq]
  · intro hnone
    simp only [find_key_by_text, searchCategories]
    rw [searchCategory_none _ v hnone]

/-- C8 witness: in the demo catalog the text `"Goodbye"` is unique, so
the round trip recovers `"bye"`. -/
theorem reverse_lookup_first_match_witness :
    get_text_by_category demoState "messages" "bye" true = "Goodbye"
    ∧ find_key_by_text demoState "Goodbye" (some "messages") = some "bye" :=
  (reverse_lookup_first_match demoState "messages" "Goodbye").1 "bye"
    (by decide) (by decide) (by decide)

/-! ## C4 -/

theorem missing_for_lang_not_mem (rd ld : LangData) (cat : String)
    (h : cat ∉ rd.map Prod.fst) :
    dget (missing_for_lang rd ld) cat = none := by
  induction rd with
  | nil => rfl
  | cons p rest ih =>
    obtain ⟨c0, rt0⟩ := p
    have hne : c0 ≠ cat := by
      intro he
      exact h (by simp [he])
    have hrest : cat ∉ rest.map Prod.fst := fun hm => h (by simp [hm])
    simp only [missing_for_lang]
    split
    · exact ih hrest
    · rw [dget, if_neg hne]
      exact ih hrest

theorem dget_missing_for_lang (rd ld : LangData) (cat : String)
    (hnd : (rd.map Prod.fst).Nodup) :
    dget (missing_for_lang rd ld) cat =
      (dget rd cat).bind (fun ref_texts =>
        let missing := (ref_texts.map Prod.fst).filter
          (fun key => (dget (dgetD ld cat []) key).isNone)
        if missing = [] then none else some missing) := by
  induction rd with
  | nil => rfl
  | cons p rest ih =>
    obtain ⟨c0, rt0⟩ := p
    simp only [List.map_cons, List.nodup_cons] at hnd
    obtain ⟨hc0, hndr⟩ := hnd
    by_cases hc : c0 = cat
    · subst hc
      have hr : dget ((c0, rt0) :: rest) c0 = some rt0 := by simp [dget]
      rw [hr]
      simp only [missing_for_lang, Option.some_bind]
      split
      · exact missing_for_lang_not_mem rest ld c0 (by simpa using hc0)
      · rw [dget, if_pos rfl]
    · have hr : dget ((c0, rt0) :: rest) cat = dget rest cat := by
        simp [dget, hc]
      rw [hr]
      simp only [missing_for_lang]
      split
      · exact ih hndr
      · rw [dget, if_neg hc]
        exact ih hndr

/-- C4 counterexample: on a fully complete catalog, the non-reference
language `"vi"` is NOT omitted from the result — it appears mapped to an
empty dict, so the result is `[("vi", [])]` rather than `[]`. -/
theorem validate_completeness_counterexample :
    validate_language_completeness c4State "en" = [("vi", [])]
    ∧ ([("vi", [])] : List (String × List (String × List String))) ≠ [] :=
  ⟨rfl, by decide⟩

/-- C4 amended: `validate_language_completeness` maps EVERY supported
non-reference language to its per-category missing-key dict (an empty
dict when the language has no gaps — the language entry is never
omitted), and within that dict a category of the reference data appears
exactly when its list of keys missing from the target language is
non-empty, carrying that list in reference insertion order. -/
theorem validate_completeness_spec (st : LanguageManager) (ref lang : String) :
    (dget (validate_language_completeness st ref) lang =
      if lang ∈ get_supported_languages ∧ lang ≠ normalize_language_code ref
      then some (missing_for_lang
             (dgetD st.language_data (normalize_language_code ref) [])
             (dgetD st.language_data lang []))
      else none)
    ∧ (∀ (rd ld : LangData) (cat : String), (rd.map Prod.fst).Nodup →
        dget (missing_for_lang rd ld) cat =
          (dget rd cat).bind (fun ref_texts =>
            let missing := (ref_texts.map Prod.fst).filter
              (fun key => (dget (dgetD ld cat []) key).isNone)
            if missing = [] then none else some missing)) := by
  refine ⟨?_, fun rd ld cat hnd => dget_missing_for_lang rd ld cat hnd⟩
  have hs : get_supported_languages = ["en", "vi"] := rfl
  rcases normalize_en_or_vi ref with hr | hr <;> rw [hr]
  · have hv : validate_language_completeness st ref =
        [("vi", missing_for_lang (dgetD st.language_data "en" [])
                  (dgetD st.language_data "vi" []))] := by
      simp only [validate_language_completeness]
      rw [hr]
      rfl
    rw [hv]
    by_cases hl : lang = "vi"
    · subst hl
      rw [dget, if_pos rfl, if_pos ⟨by decide, by decide⟩]
    · have hcond : ¬(lang ∈ get_supported_languages ∧ lang ≠ "en") := by
        rintro ⟨hmem, hne⟩
        rw [hs] at hmem
        simp at hmem
        rcases hmem with h1 | h1
        · exact hne h1
        · exact hl h1
      rw [if_neg hcond, dget, if_neg (fun he => hl he.symm)]
      rfl
  · have hv : validate_language_completeness st ref =
        [("en", missing_for_lang (dgetD st.language_data "vi" [])
                  (dgetD st.language_data "en" []))] := by
      simp only [validate_language_completeness]
      rw [hr]
      rfl
    rw [hv]
    by_cases hl : lang = "en"
    · subst hl
      rw [dget, if_pos rfl, if_pos ⟨by decide, by decide⟩]
    · have hcond : ¬(lang ∈ get_supported_languages ∧ lang ≠ "vi") := by
        rintro ⟨hmem, hne⟩
        rw [hs] at hmem
        simp at hmem
        rcases hmem with h1 | h1
        · exact hl h1
        · exact hne h1
      rw [if_neg hcond, dget, if_neg (fun he => hl he.symm)]
      rfl

/-- C4 witness: a catalog where Vietnamese lacks `"welcome"` reports it,
and the complete `c4State` reports an empty dict for `"vi"`. -/
theorem validate_completeness_spec_witness :
    dget (missing_for_lang [("messages", [("welcome", "Welcome")])] []) "messages" =
      some ["welcome"] := by
  have h := (validate_completeness_spec c4State "en" "vi").2
    [("messages", [("welcome", "Welcome")])] [] "messages" (by decide)
  rw [h]
  decide

/-! ## C10 -/

/-- C10: the text-lookup path matches category names case-insensitively
— `get_text_by_category` gives the same answer for a category argument
and its lowercased form — whereas `get_available_keys` and
`find_key_by_text` compare the argument to the stored (lowercased)
category names verbatim, so a category argument containing an upper-case
letter yields no keys and no reverse-lookup hit even though the stored
category names are all lowercase. -/
theorem category_case_sensitivity (st : LanguageManager) (c k : String) (fb : Bool) :
    get_text_by_category st c k fb = get_text_by_category st (pyLower c) k fb
    ∧ ((∀ p ∈ dgetD st.language_data st.current_language [], pyLower p.1 = p.1) →
        pyLower c ≠ c →
        get_available_keys st (some c) none = []
        ∧ (∀ v, find_key_by_text st v (some c) = none)) := by
  constructor
  · unfold get_text_by_category get_text_by_category_with_order
    rw [category_dict_pyLower, fallbackScan_pyLower]
  · intro hlow hup
    have hnone : dget (dgetD st.language_data st.current_language []) c = none := by
      apply dget_eq_none_of_forall
      intro p hp he
      apply hup
      rw [← he]
      exact hlow p hp
    have hempty : dgetD (dgetD st.language_data st.current_language []) c [] =
        ([] : CategoryData) := by
      rw [dgetD, hnone]
      rfl
    constructor
    · simp only [get_available_keys]
      rw [hempty]
      rfl
    · intro v
      simp only [find_key_by_text, searchCategories]
      rw [hempty]
      rfl

/-- C10 witness: in the demo catalog the upper-case category
`"MESSAGES"` still resolves text (via lowercasing) but exposes no
available keys. -/
theorem category_case_sensitivity_witness :
    get_available_keys demoState (some "MESSAGES") none = []
    ∧ get_text_by_category demoState "MESSAGES" "hello" true =
        get_text_by_category demoState (pyLower "MESSAGES") "hello" true :=
  ⟨((category_case_sensitivity demoState "MESSAGES" "hello" true).2
      (by decide) (by decide)).1,
   (category_case_sensitivity demoState "MESSAGES" "hello" true).1⟩
